import Mathlib

/-! memos: a shallow embedding of `main.go`

`main.go` is a thin layer over three collaborators: the process environment
(`os.LookupEnv`), the gin router with its request binding, and a gorm handle on
an SQLite file.  The functions of `main.go` are embedded one for one; each
collaborator call is embedded as a small executable definition that follows the
documented behaviour of the library routine that is called.

* Go `int`/`int64` values are `Int`s; the 64-bit range matters in two places
  only (`strconv.ParseInt` and the SQLite rowid allocator), where it is checked
  explicitly.
* The table `memos` is a list of rows.  The position of a row in the list stands
  for the storage order, which the program never relies on.
* A storage operation can fail for reasons outside the program (file
  unreadable, disk error, lock timeout).  Each request carries that outcome as
  `Env.fault`: `none` when the engine answers, `some msg` when it reports `msg`.
-/

namespace Memos

/-! ## Data model -/

/-- Largest value of a Go `int64` and of an SQLite rowid. -/
def MaxInt64 : Int := 2 ^ 63 - 1

/-- The record `Memo` of `main.go`, field for field. -/
structure Memo where
  ID : Int
  Hero : String
  Tag : String
  Title : String
  Content : String
  UpdatedAt : Int
  CreatedAt : Int
  Archived : Bool
deriving DecidableEq, Repr

/-- The zero value that `var memo Memo` declares. -/
def Memo.zero : Memo :=
  { ID := 0, Hero := "", Tag := "", Title := "", Content := "",
    UpdatedAt := 0, CreatedAt := 0, Archived := false }

/-- The error values that reach the handlers. -/
inductive Err where
  /-- `*strconv.NumError`, returned by the form binding for a malformed number or boolean. -/
  | NumError (func num msg : String)
  /-- `gorm.ErrRecordNotFound`, returned by `First` when no row matches. -/
  | ErrRecordNotFound
  /-- Any failure reported by the storage engine. -/
  | Storage (msg : String)
  /-- The failure of `req.ParseForm()` on a body that cannot be parsed. -/
  | Request (msg : String)
deriving DecidableEq, Repr

/-- The method `Error()`; quoting of the offending input follows `strconv.Quote` for
plain printable input. -/
def Err.Error : Err → String
  | .NumError func num msg => "strconv." ++ func ++ ": parsing \"" ++ num ++ "\": " ++ msg
  | .ErrRecordNotFound => "record not found"
  | .Storage msg => msg
  | .Request msg => msg

deriving instance DecidableEq for Except

/-! ## Configuration -/

/-- `orEnv` of `main.go`; `LookupEnv key` is `os.LookupEnv(key)`, `none` standing for
`ok = false`. -/
def orEnv (LookupEnv : String → Option String) (key dflt : String) : String :=
  match LookupEnv key with
  | some v => v
  | none => dflt

/-- The package variable `DBFile`. -/
def DBFile (LookupEnv : String → Option String) : String := orEnv LookupEnv "DB_FILE" "memos.db"

/-- The package variable `Port`. -/
def Port (LookupEnv : String → Option String) : String := orEnv LookupEnv "PORT" "3000"

/-! ## Storage: the gorm handle `DB` on an SQLite table -/

/-- State behind the handle `DB`: the rows of table `memos` and the counter that SQLite
keeps in `sqlite_sequence` for an `AUTOINCREMENT` key. -/
structure Store where
  rows : List Memo
  seq : Int
deriving DecidableEq, Repr

/-- `DB.Find(&memos, cond...)`: every row that satisfies the condition; an engine failure
is the only error, an empty selection is not one. -/
def DB.Find (fault : Option String) (s : Store) (cond : Memo → Bool) :
    Except Err (List Memo) :=
  match fault with
  | some msg => .error (.Storage msg)
  | none => .ok (s.rows.filter cond)

/-- The row with the least primary key (`ORDER BY id LIMIT 1`); among equal keys the
earlier row. -/
def leastID : List Memo → Option Memo
  | [] => none
  | m :: ms =>
    match leastID ms with
    | none => some m
    | some m' => if m.ID ≤ m'.ID then some m else some m'

/-- `DB.First(&memo, cond...)`: the matching row with the least primary key, and
`ErrRecordNotFound` when nothing matches. -/
def DB.First (fault : Option String) (s : Store) (cond : Memo → Bool) : Except Err Memo :=
  match fault with
  | some msg => .error (.Storage msg)
  | none =>
    match leastID (s.rows.filter cond) with
    | some m => .ok m
    | none => .error .ErrRecordNotFound

/-- Largest rowid in the table, `none` for an empty table. -/
def maxRowid : List Memo → Option Int
  | [] => none
  | m :: ms =>
    match maxRowid ms with
    | none => some m.ID
    | some k => some (max m.ID k)

/-- SQLite's allocation of a rowid for an `INTEGER PRIMARY KEY AUTOINCREMENT` column:
one more than the largest rowid in the table (1 for an empty table), raised to one more
than the recorded sequence value; `SQLITE_FULL` once the largest rowid has been used. -/
def NewRowid (s : Store) : Except Err Int :=
  match maxRowid s.rows with
  | none =>
    if s.seq = MaxInt64 then .error (.Storage "database or disk is full")
    else .ok (if 1 < s.seq + 1 then s.seq + 1 else 1)
  | some k =>
    if k ≥ MaxInt64 ∨ s.seq = MaxInt64 then .error (.Storage "database or disk is full")
    else .ok (if k + 1 < s.seq + 1 then s.seq + 1 else k + 1)

/-- `DB.Create(&memo)` at Unix time `now`.  gorm fills `UpdatedAt` (`autoUpdateTime`) and
`CreatedAt` (`autoCreateTime`) with the current time when they are zero and keeps them
otherwise; a zero `Archived` takes the column default `false`; a zero `ID` is left to the
engine, a non-zero one is inserted as given and must not be in use.  The result is the
record as written back by gorm and the new state. -/
def DB.Create (fault : Option String) (now : Int) (s : Store) (memo : Memo) :
    Except Err (Memo × Store) :=
  match fault with
  | some msg => .error (.Storage msg)
  | none =>
    let memo : Memo := { memo with
      UpdatedAt := if memo.UpdatedAt = 0 then now else memo.UpdatedAt,
      CreatedAt := if memo.CreatedAt = 0 then now else memo.CreatedAt }
    if memo.ID = 0 then
      match NewRowid s with
      | .error e => .error e
      | .ok v =>
        let row : Memo := { memo with ID := v }
        .ok (row, { rows := s.rows ++ [row], seq := v })
    else if s.rows.any (fun r => r.ID == memo.ID) then
      .error (.Storage "UNIQUE constraint failed: memos.id")
    else
      .ok (memo, { rows := s.rows ++ [memo], seq := max s.seq memo.ID })

/-! ## Query layer of `main.go` -/

/-- `getMemos` of `main.go`: `DB.Find(&memos, "archived = ?", false)`. -/
def getMemos (fault : Option String) (s : Store) : Except Err (List Memo) :=
  match DB.Find fault s (fun m => m.Archived == false) with
  | .error err => .error err
  | .ok memos => .ok memos

/-- `getMemosFilterByTag` of `main.go`: `DB.Find(&memos, "tag = ?", tag)`. -/
def getMemosFilterByTag (fault : Option String) (s : Store) (tag : String) :
    Except Err (List Memo) :=
  match DB.Find fault s (fun m => m.Tag == tag) with
  | .error err => .error err
  | .ok memos => .ok memos

/-- `getMemo` of `main.go`: `DB.First(&memo, "id = ?", id)`. -/
def getMemo (fault : Option String) (s : Store) (id : Int) : Except Err Memo :=
  match DB.First fault s (fun m => m.ID == id) with
  | .error err => .error err
  | .ok memo => .ok memo

/-! ## Request binding: gin's `ShouldBind` on a form submission

`c.ShouldBind(&memo)` on a form-encoded request is gin's `formBinding.Bind`: it calls
`req.ParseForm()` and returns its error when the body cannot be parsed, and otherwise
maps the values `req.Form` onto the record with `mapForm` of
`binding/form_mapping.go`.  Every exported field is visited.  The key that is
looked up is the field's `form` tag and, when the field has no such tag, the Go name of
the field (`tryToSetValue`: "default value is FieldName"); only the tag `form:"-"`
excludes a field.  A key that is absent leaves the field as it was.  `Memo` tags
`Tag`, `Title` and `Content` with the keys `tag`, `title` and `content`, and leaves
`ID`, `Hero`, `UpdatedAt`, `CreatedAt` and `Archived` untagged. -/

/-- Form values of a request (`url.Values`) in order of appearance; the binding reads the
first value of a key, `List.lookup`. -/
abbrev Form := List (String × String)

/-- A form submission as `req.ParseForm()` leaves it: the error that the call returns, if
any, and the values `req.Form`. -/
structure Submission where
  parseErr : Option String
  values : Form
deriving DecidableEq, Repr

/-- The digit loop of `strconv.ParseUint(s, 10, 64)` with accumulator `n`. -/
def ParseUint.loop (n : Nat) : List Char → Except String Nat
  | [] => .ok n
  | c :: cs =>
    if c.isDigit then
      if n ≥ (2 ^ 64 - 1) / 10 + 1 then .error "value out of range"
      else if n * 10 + (c.toNat - 48) > 2 ^ 64 - 1 then .error "value out of range"
      else ParseUint.loop (n * 10 + (c.toNat - 48)) cs
    else .error "invalid syntax"

/-- `strconv.ParseInt(s, 10, 64)`: an optional sign, then one or more decimal digits, the
value within the 64-bit signed range. -/
def ParseInt (s : String) : Except Err Int :=
  let signed : Bool × List Char :=
    match s.data with
    | '+' :: cs => (false, cs)
    | '-' :: cs => (true, cs)
    | cs => (false, cs)
  match signed.2 with
  | [] => .error (.NumError "ParseInt" s "invalid syntax")
  | c :: cs =>
    match ParseUint.loop 0 (c :: cs) with
    | .error "value out of range" => .error (.NumError "ParseInt" s "value out of range")
    | .error _ => .error (.NumError "ParseInt" s "invalid syntax")
    | .ok un =>
      if signed.1 then
        if un > 2 ^ 63 then .error (.NumError "ParseInt" s "value out of range")
        else .ok (-(un : Int))
      else
        if un ≥ 2 ^ 63 then .error (.NumError "ParseInt" s "value out of range")
        else .ok (un : Int)

/-- `strconv.ParseBool`. -/
def ParseBool (str : String) : Except Err Bool :=
  if str ∈ ["1", "t", "T", "true", "TRUE", "True"] then .ok true
  else if str ∈ ["0", "f", "F", "false", "FALSE", "False"] then .ok false
  else .error (.NumError "ParseBool" str "invalid syntax")

/-- gin's `setIntField`: the empty string counts as `0`. -/
def setIntField (val : String) : Except Err Int :=
  ParseInt (if val = "" then "0" else val)

/-- gin's `setBoolField`: the empty string counts as `false`. -/
def setBoolField (val : String) : Except Err Bool :=
  ParseBool (if val = "" then "false" else val)

/-- Binding of an integer field under `key`; `cur` is the field's current value. -/
def bindInt (form : Form) (key : String) (cur : Int) : Except Err Int :=
  match form.lookup key with
  | none => .ok cur
  | some val => setIntField val

/-- Binding of a boolean field under `key`. -/
def bindBool (form : Form) (key : String) (cur : Bool) : Except Err Bool :=
  match form.lookup key with
  | none => .ok cur
  | some val => setBoolField val

/-- Binding of a string field under `key`; it cannot fail. -/
def bindString (form : Form) (key : String) (cur : String) : String :=
  match form.lookup key with
  | none => cur
  | some val => val

/-- gin's `mapForm(&memo, req.Form)`: the fields of `Memo` in declaration order, each
under the key described above; the first conversion failure is returned. -/
def mapForm (form : Form) (memo : Memo) : Except Err Memo :=
  match bindInt form "ID" memo.ID with
  | .error err => .error err
  | .ok id =>
    match bindInt form "UpdatedAt" memo.UpdatedAt with
    | .error err => .error err
    | .ok updatedAt =>
      match bindInt form "CreatedAt" memo.CreatedAt with
      | .error err => .error err
      | .ok createdAt =>
        match bindBool form "Archived" memo.Archived with
        | .error err => .error err
        | .ok archived =>
          .ok { ID := id,
                Hero := bindString form "Hero" memo.Hero,
                Tag := bindString form "tag" memo.Tag,
                Title := bindString form "title" memo.Title,
                Content := bindString form "content" memo.Content,
                UpdatedAt := updatedAt,
                CreatedAt := createdAt,
                Archived := archived }

/-- `c.ShouldBind(&memo)` for a form submission: the error of `req.ParseForm()` if there
is one, and the mapping of the parsed values otherwise.  `Memo` declares no `binding`
tag, so the validation step that follows the mapping accepts every record. -/
def ShouldBind (sub : Submission) (memo : Memo) : Except Err Memo :=
  match sub.parseErr with
  | some msg => .error (.Request msg)
  | none => mapForm sub.values memo

/-! ## HTTP surface: the routes registered in `main` -/

/-- The object handed to a template. -/
inductive Data where
  /-- `gin.H{"Message": msg}`. -/
  | Message (msg : String)
  /-- A slice of memos. -/
  | Memos (memos : List Memo)
  /-- `gin.H{}`. -/
  | Empty
deriving DecidableEq, Repr

/-- What a handler writes. -/
inductive Response where
  /-- `c.HTML(code, name, obj)`. -/
  | HTML (code : Nat) (name : String) (obj : Data)
  /-- `c.Redirect(code, location)`. -/
  | Redirect (code : Nat) (location : String)
  /-- A file of the embedded `static` tree, served with 200. -/
  | Asset (bytes : String)
  /-- The router's plain 404. -/
  | NotFound
deriving DecidableEq, Repr

/-- `http.StatusOK`. -/
def StatusOK : Nat := 200
/-- `http.StatusFound`. -/
def StatusFound : Nat := 302
/-- `http.StatusInternalServerError`. -/
def StatusInternalServerError : Nat := 500

/-- What a request meets outside the program: the clock, the condition of the storage
engine and the embedded static tree. -/
structure Env where
  now : Int
  fault : Option String
  StaticFS : String → Option String

/-- Handler of `GET /`. -/
def handleIndex (env : Env) (s : Store) : Response × Store :=
  match getMemos env.fault s with
  | .error err => (.HTML StatusInternalServerError "error.html" (.Message err.Error), s)
  | .ok memos => (.HTML StatusOK "list.html" (.Memos memos), s)

/-- Handler of `GET /:tag`; `tag` is `c.Param("tag")`. -/
def handleTag (env : Env) (s : Store) (tag : String) : Response × Store :=
  match getMemosFilterByTag env.fault s tag with
  | .error err => (.HTML StatusInternalServerError "error.html" (.Message err.Error), s)
  | .ok memos => (.HTML StatusOK "list.html" (.Memos memos), s)

/-- Handler of `POST /memo/create`. -/
def handleMemoCreate (env : Env) (s : Store) (sub : Submission) : Response × Store :=
  match ShouldBind sub Memo.zero with
  | .error err => (.HTML StatusInternalServerError "error.html" (.Message err.Error), s)
  | .ok memo =>
    match DB.Create env.fault env.now s memo with
    | .error err => (.HTML StatusInternalServerError "error.html" (.Message err.Error), s)
    | .ok (_, s') => (.Redirect StatusFound "/", s')

/-- Handler of `GET /create.html`. -/
def handleCreateHtml (s : Store) : Response × Store :=
  (.HTML StatusOK "create.html" .Empty, s)

/-- Handler of `GET /timeline.html`. -/
def handleTimeline (env : Env) (s : Store) : Response × Store :=
  match getMemos env.fault s with
  | .error err => (.HTML StatusInternalServerError "error.html" (.Message err.Error), s)
  | .ok memos => (.HTML StatusOK "timeline.html" (.Memos memos), s)

/-- Handler of `GET /static/*filepath`. -/
def handleStatic (env : Env) (s : Store) (filepath : String) : Response × Store :=
  match env.StaticFS filepath with
  | some bytes => (.Asset bytes, s)
  | none => (.NotFound, s)

/-- A request, by the route that the router selects for it. -/
inductive Request where
  | GetIndex
  | GetTag (tag : String)
  | PostMemoCreate (sub : Submission)
  | GetCreateHtml
  | GetTimelineHtml
  | GetStatic (filepath : String)
  | Unrouted
deriving DecidableEq, Repr

/-- The router built in `main`. -/
def serve (env : Env) (s : Store) : Request → Response × Store
  | .GetIndex => handleIndex env s
  | .GetTag tag => handleTag env s tag
  | .PostMemoCreate sub => handleMemoCreate env s sub
  | .GetCreateHtml => handleCreateHtml s
  | .GetTimelineHtml => handleTimeline env s
  | .GetStatic filepath => handleStatic env s filepath
  | .Unrouted => (.NotFound, s)

/-- A submission that carries the fields of the create form and no key that names
another field of `Memo`. -/
def documentedFields (form : Form) : Prop :=
  form.lookup "ID" = none ∧ form.lookup "Hero" = none ∧ form.lookup "UpdatedAt" = none ∧
    form.lookup "CreatedAt" = none ∧ form.lookup "Archived" = none

instance (form : Form) : Decidable (documentedFields form) := by
  unfold documentedFields; infer_instance

/-- The response is the error view with status 500. -/
def Response.isErrorView (r : Response) : Prop :=
  ∃ msg, r = .HTML StatusInternalServerError "error.html" (.Message msg)

/-- The outcome of the two fallible steps of the create handler: the binding, then the
insertion. -/
def createOutcome (env : Env) (s : Store) (sub : Submission) : Except Err (Memo × Store) :=
  match ShouldBind sub Memo.zero with
  | .error err => .error err
  | .ok memo => DB.Create env.fault env.now s memo

/-! ## Auxiliary facts about the storage primitives -/

theorem maxRowid_none {rows : List Memo} (h : maxRowid rows = none) : rows = [] := by
  cases rows with
  | nil => rfl
  | cons m ms =>
    simp only [maxRowid] at h
    split at h <;> simp at h

theorem maxRowid_le {rows : List Memo} {k : Int} (h : maxRowid rows = some k) :
    ∀ r ∈ rows, r.ID ≤ k := by
  induction rows generalizing k with
  | nil => simp [maxRowid] at h
  | cons m ms ih =>
    intro r hr
    simp only [maxRowid] at h
    split at h
    · next hnone =>
      have hms := maxRowid_none hnone
      subst hms
      simp at h hr
      subst hr
      omega
    · next k' hsome =>
      simp at h
      rcases List.mem_cons.mp hr with hr | hr
      · subst hr
        have := le_max_left r.ID k'
        omega
      · have h1 := ih hsome r hr
        have := le_max_right m.ID k'
        omega

theorem NewRowid_fresh {s : Store} {v : Int} (h : NewRowid s = .ok v) :
    ∀ r ∈ s.rows, r.ID < v := by
  intro r hr
  unfold NewRowid at h
  split at h
  · next hnone =>
    have := maxRowid_none hnone
    rw [this] at hr
    simp at hr
  · next k hsome =>
    have hle := maxRowid_le hsome r hr
    split at h
    · simp at h
    · simp only [Except.ok.injEq] at h
      split at h <;> omega

theorem maxRowid_lt {rows : List Memo} {k B : Int} (hrows : ∀ r ∈ rows, r.ID < B)
    (h : maxRowid rows = some k) : k < B := by
  induction rows generalizing k with
  | nil => simp [maxRowid] at h
  | cons m ms ih =>
    have hm : m.ID < B := hrows m (List.mem_cons_self m ms)
    simp only [maxRowid] at h
    split at h
    · simp at h
      omega
    · next k' hk' =>
      simp at h
      have h1 : k' < B := ih (fun r hr => hrows r (List.mem_cons_of_mem m hr)) hk'
      rcases max_cases m.ID k' with ⟨hmax, _⟩ | ⟨hmax, _⟩ <;> omega

theorem NewRowid_ok {s : Store} (hrows : ∀ r ∈ s.rows, r.ID < MaxInt64)
    (hseq : s.seq ≠ MaxInt64) : ∃ v, NewRowid s = .ok v := by
  unfold NewRowid
  split
  · simp [hseq]
  · next k hsome =>
    have hk : k < MaxInt64 := maxRowid_lt hrows hsome
    have : ¬ (k ≥ MaxInt64 ∨ s.seq = MaxInt64) := by
      intro h
      rcases h with h | h
      · omega
      · exact hseq h
    simp [this]

/-- What a successful `DB.Create` has done. -/
theorem Create_ok {fault : Option String} {now : Int} {s s' : Store} {memo m : Memo}
    (h : DB.Create fault now s memo = .ok (m, s')) :
    fault = none ∧ s'.rows = s.rows ++ [m] ∧ (∀ r ∈ s.rows, r.ID ≠ m.ID) ∧
      m.Hero = memo.Hero ∧ m.Tag = memo.Tag ∧ m.Title = memo.Title ∧
      m.Content = memo.Content ∧ m.Archived = memo.Archived ∧
      m.UpdatedAt = (if memo.UpdatedAt = 0 then now else memo.UpdatedAt) ∧
      m.CreatedAt = (if memo.CreatedAt = 0 then now else memo.CreatedAt) := by
  unfold DB.Create at h
  split at h
  · simp at h
  · simp only at h
    split at h
    · split at h
      · simp at h
      · next v hv =>
        simp only [Except.ok.injEq, Prod.mk.injEq] at h
        obtain ⟨hm, hs⟩ := h
        subst hm hs
        refine ⟨rfl, rfl, ?_, rfl, rfl, rfl, rfl, rfl, rfl, rfl⟩
        intro r hr
        have := NewRowid_fresh hv r hr
        simp only
        omega
    · split at h
      · simp at h
      · next hany =>
        simp only [Except.ok.injEq, Prod.mk.injEq] at h
        obtain ⟨hm, hs⟩ := h
        subst hm hs
        refine ⟨rfl, rfl, ?_, rfl, rfl, rfl, rfl, rfl, rfl, rfl⟩
        intro r hr heq
        apply hany
        simp only [List.any_eq_true, beq_iff_eq]
        exact ⟨r, hr, heq⟩

/-- A failed `DB.Create` is the only alternative to a successful one, and the handler
keeps the old state then. -/
theorem handleMemoCreate_cases (env : Env) (s : Store) (sub : Submission) :
    (∃ err, (ShouldBind sub Memo.zero = .error err ∨
        ∃ memo, ShouldBind sub Memo.zero = .ok memo ∧
          DB.Create env.fault env.now s memo = .error err) ∧
      handleMemoCreate env s sub =
        (.HTML StatusInternalServerError "error.html" (.Message err.Error), s)) ∨
    (∃ memo m s', ShouldBind sub Memo.zero = .ok memo ∧
      DB.Create env.fault env.now s memo = .ok (m, s') ∧
      handleMemoCreate env s sub = (.Redirect StatusFound "/", s')) := by
  unfold handleMemoCreate
  cases hb : ShouldBind sub Memo.zero with
  | error err => exact Or.inl ⟨err, Or.inl rfl, rfl⟩
  | ok memo =>
    cases hc : DB.Create env.fault env.now s memo with
    | error err => exact Or.inl ⟨err, Or.inr ⟨memo, rfl, hc⟩, by simp [hc]⟩
    | ok p =>
      obtain ⟨m, s'⟩ := p
      exact Or.inr ⟨memo, m, s', rfl, hc, by simp [hc]⟩

/-- The binding of a submission that carries only the fields of the create form. -/
theorem ShouldBind_documented {form : Form} (h : documentedFields form) :
    ShouldBind ⟨none, form⟩ Memo.zero =
      .ok { Memo.zero with
            Tag := bindString form "tag" "",
            Title := bindString form "title" "",
            Content := bindString form "content" "" } := by
  obtain ⟨h1, h2, h3, h4, h5⟩ := h
  simp [ShouldBind, mapForm, bindInt, bindBool, bindString, h1, h2, h3, h4, h5, Memo.zero]

/-- A successful create of a submission that carries only the fields of the create
form: what the appended memo is. -/
theorem handleMemoCreate_documented {env : Env} {s s' : Store} {form : Form}
    (hform : documentedFields form)
    (h : handleMemoCreate env s ⟨none, form⟩ = (.Redirect StatusFound "/", s')) :
    ∃ m, s'.rows = s.rows ++ [m] ∧ (∀ r ∈ s.rows, r.ID ≠ m.ID) ∧
      m.Archived = false ∧ m.CreatedAt = env.now ∧ m.UpdatedAt = env.now ∧ m.Hero = "" ∧
      m.Tag = bindString form "tag" "" ∧ m.Title = bindString form "title" "" ∧
      m.Content = bindString form "content" "" := by
  have hbind := ShouldBind_documented hform
  rcases handleMemoCreate_cases env s ⟨none, form⟩ with
    ⟨err, _, hresp⟩ | ⟨memo, m, s'', hb, hc, hresp⟩
  · rw [hresp] at h
    simp at h
  · rw [hresp] at h
    simp only [Prod.mk.injEq, true_and] at h
    subst h
    rw [hbind] at hb
    simp only [Except.ok.injEq] at hb
    subst hb
    obtain ⟨_, hrows, hfresh, hhero, htag, htitle, hcontent, harch, hupd, hcre⟩ := Create_ok hc
    refine ⟨m, hrows, hfresh, ?_, ?_, ?_, ?_, ?_, ?_, ?_⟩
    · simpa [Memo.zero] using harch
    · simpa [Memo.zero] using hcre
    · simpa [Memo.zero] using hupd
    · simpa [Memo.zero] using hhero
    · simpa [Memo.zero] using htag
    · simpa [Memo.zero] using htitle
    · simpa [Memo.zero] using hcontent

/-- Whatever the submission, a create answered with the redirect has appended exactly one
memo, under an identifier that no stored memo carries; identifiers that were unique stay
unique. -/
theorem handleMemoCreate_fresh {env : Env} {s s' : Store} {sub : Submission}
    (h : handleMemoCreate env s sub = (.Redirect StatusFound "/", s')) :
    ∃ m, s'.rows = s.rows ++ [m] ∧ (∀ r ∈ s.rows, r.ID ≠ m.ID) ∧
      ((s.rows.map Memo.ID).Nodup → (s'.rows.map Memo.ID).Nodup) := by
  rcases handleMemoCreate_cases env s sub with ⟨err, _, hresp⟩ | ⟨memo, m, s'', _, hc, hresp⟩
  · rw [hresp] at h
    simp at h
  · rw [hresp] at h
    simp only [Prod.mk.injEq, true_and] at h
    subst h
    obtain ⟨_, hrows, hfresh, _⟩ := Create_ok hc
    refine ⟨m, hrows, hfresh, ?_⟩
    intro hnd
    rw [hrows, List.map_append, List.nodup_append]
    refine ⟨hnd, by simp, ?_⟩
    intro a ha hb
    simp only [List.map_cons, List.map_nil, List.mem_singleton] at hb
    obtain ⟨r, hr, hra⟩ := List.mem_map.mp ha
    exact hfresh r hr (hra.trans hb)

theorem filter_id_fresh {rows : List Memo} {m : Memo} (h : ∀ r ∈ rows, r.ID ≠ m.ID) :
    (rows ++ [m]).filter (fun r => r.ID == m.ID) = [m] := by
  rw [List.filter_append]
  have : rows.filter (fun r => r.ID == m.ID) = [] := by
    rw [List.filter_eq_nil_iff]
    intro r hr
    simpa using h r hr
  simp [this]

/-! ## Query layer -/

/-- C1: whenever the engine answers, `getMemos` succeeds and returns exactly the rows of the
store whose `Archived` flag is false: a memo is in the result if and only if it is a
row with `Archived = false`.  The result is empty (an empty list, no error) exactly when
every row is archived.  The only error is the engine's own failure. -/
theorem getMemos_returns_active (s : Store) :
    (∃ memos, getMemos none s = .ok memos ∧
      memos = s.rows.filter (fun m => m.Archived == false) ∧
      (∀ m, m ∈ memos ↔ m ∈ s.rows ∧ m.Archived = false) ∧
      (memos = [] ↔ ∀ m ∈ s.rows, m.Archived = true)) ∧
    ∀ msg, getMemos (some msg) s = .error (.Storage msg) := by
  refine ⟨⟨_, rfl, rfl, ?_, ?_⟩, fun msg => rfl⟩
  · intro m
    simp [List.mem_filter]
  · simp [List.filter_eq_nil_iff]

/-- C1, at a concrete store with one active and one archived memo: the result is the
active memo alone. -/
theorem getMemos_returns_active_witness :
    ∃ memos, getMemos none
        ⟨[{ Memo.zero with ID := 1, Tag := "work" },
          { Memo.zero with ID := 2, Tag := "work", Archived := true }], 2⟩ = .ok memos ∧
      memos = [{ Memo.zero with ID := 1, Tag := "work" }] := by
  obtain ⟨memos, hok, hfilter, _⟩ :=
    (getMemos_returns_active
      ⟨[{ Memo.zero with ID := 1, Tag := "work" },
        { Memo.zero with ID := 2, Tag := "work", Archived := true }], 2⟩).1
  exact ⟨memos, hok, hfilter.trans (by decide)⟩

/-- C2: whenever the engine answers, `getMemosFilterByTag t` succeeds and returns exactly
the rows whose `Tag` equals `t`, archived or not: a memo is in the result if and only if
it is a row with `Tag = t`; in particular an archived row with tag `t` is returned.  The
only error is the engine's own failure. -/
theorem getMemosFilterByTag_returns_tagged (s : Store) (t : String) :
    (∃ memos, getMemosFilterByTag none s t = .ok memos ∧
      memos = s.rows.filter (fun m => m.Tag == t) ∧
      (∀ m, m ∈ memos ↔ m ∈ s.rows ∧ m.Tag = t) ∧
      (∀ m, m ∈ s.rows ∧ m.Tag = t ∧ m.Archived = true → m ∈ memos)) ∧
    ∀ msg, getMemosFilterByTag (some msg) s t = .error (.Storage msg) := by
  refine ⟨⟨_, rfl, rfl, ?_, ?_⟩, fun msg => rfl⟩
  · intro m
    simp [List.mem_filter]
  · rintro m ⟨hm, ht, _⟩
    simp [List.mem_filter, hm, ht]

/-- C2, at a concrete store: the tag `work` selects the active and the archived memo that
carry it and leaves out the memo tagged `Work`. -/
theorem getMemosFilterByTag_returns_tagged_witness :
    ∃ memos, getMemosFilterByTag none
        ⟨[{ Memo.zero with ID := 1, Tag := "work" },
          { Memo.zero with ID := 2, Tag := "work", Archived := true },
          { Memo.zero with ID := 3, Tag := "Work" }], 3⟩ "work" = .ok memos ∧
      memos = [{ Memo.zero with ID := 1, Tag := "work" },
               { Memo.zero with ID := 2, Tag := "work", Archived := true }] := by
  obtain ⟨memos, hok, hfilter, _⟩ :=
    (getMemosFilterByTag_returns_tagged
      ⟨[{ Memo.zero with ID := 1, Tag := "work" },
        { Memo.zero with ID := 2, Tag := "work", Archived := true },
        { Memo.zero with ID := 3, Tag := "Work" }], 3⟩ "work").1
  exact ⟨memos, hok, hfilter.trans (by decide)⟩

/-- C3: whenever the engine answers, `getMemo` called with the identifier of the record that a
successful `DB.Create` has just written returns exactly that record, and `getMemo`
called with an identifier that no row carries fails with `ErrRecordNotFound`. -/
theorem getMemo_fresh_and_missing (s : Store) :
    (∀ now memo m s', DB.Create none now s memo = .ok (m, s') →
      getMemo none s' m.ID = .ok m) ∧
    (∀ id, (∀ r ∈ s.rows, r.ID ≠ id) → getMemo none s id = .error .ErrRecordNotFound) := by
  constructor
  · intro now memo m s' h
    obtain ⟨_, hrows, hfresh, _⟩ := Create_ok h
    simp [getMemo, DB.First, hrows, filter_id_fresh hfresh, leastID]
  · intro id hid
    have : s.rows.filter (fun m => m.ID == id) = [] := by
      rw [List.filter_eq_nil_iff]
      intro r hr
      simpa using hid r hr
    simp [getMemo, DB.First, this, leastID]

/-- C3, at a concrete store: the record created on a one-row store is found under its new
identifier 2, and identifier 5, which no row carries, is not found. -/
theorem getMemo_fresh_and_missing_witness :
    getMemo none
        ⟨[{ Memo.zero with ID := 1, CreatedAt := 7, UpdatedAt := 7 },
          { Memo.zero with ID := 2, Title := "Hi", CreatedAt := 9, UpdatedAt := 9 }], 2⟩ 2 =
      .ok { Memo.zero with ID := 2, Title := "Hi", CreatedAt := 9, UpdatedAt := 9 } ∧
    getMemo none ⟨[{ Memo.zero with ID := 1, CreatedAt := 7, UpdatedAt := 7 }], 1⟩ 5 =
      .error .ErrRecordNotFound :=
  ⟨(getMemo_fresh_and_missing
      ⟨[{ Memo.zero with ID := 1, CreatedAt := 7, UpdatedAt := 7 }], 1⟩).1 9
      { Memo.zero with Title := "Hi" }
      { Memo.zero with ID := 2, Title := "Hi", CreatedAt := 9, UpdatedAt := 9 }
      ⟨[{ Memo.zero with ID := 1, CreatedAt := 7, UpdatedAt := 7 },
        { Memo.zero with ID := 2, Title := "Hi", CreatedAt := 9, UpdatedAt := 9 }], 2⟩
      (by decide),
   (getMemo_fresh_and_missing
      ⟨[{ Memo.zero with ID := 1, CreatedAt := 7, UpdatedAt := 7 }], 1⟩).2 5 (by decide)⟩

/-! ## Configuration -/

/-- C10: `orEnv key dflt` is `dflt` when the variable is not set and the variable's value
when it is set, the empty string included; hence `DBFile` is `memos.db` when `DB_FILE`
is unset, `Port` is `3000` when `PORT` is unset, and each is the variable's value
otherwise. -/
theorem orEnv_default_or_value (LookupEnv : String → Option String) :
    (∀ key dflt, LookupEnv key = none → orEnv LookupEnv key dflt = dflt) ∧
    (∀ key dflt v, LookupEnv key = some v → orEnv LookupEnv key dflt = v) ∧
    (LookupEnv "DB_FILE" = none → DBFile LookupEnv = "memos.db") ∧
    (∀ v, LookupEnv "DB_FILE" = some v → DBFile LookupEnv = v) ∧
    (LookupEnv "PORT" = none → Port LookupEnv = "3000") ∧
    (∀ v, LookupEnv "PORT" = some v → Port LookupEnv = v) := by
  refine ⟨?_, ?_, ?_, ?_, ?_, ?_⟩
  · intro key dflt h
    simp [orEnv, h]
  · intro key dflt v h
    simp [orEnv, h]
  · intro h
    simp [DBFile, orEnv, h]
  · intro v h
    simp [DBFile, orEnv, h]
  · intro h
    simp [Port, orEnv, h]
  · intro v h
    simp [Port, orEnv, h]

/-- C10, in an environment that sets `PORT` to the empty string and leaves `DB_FILE` unset:
`Port` is the empty string and `DBFile` is `memos.db`. -/
theorem orEnv_default_or_value_witness :
    Port (fun key => if key = "PORT" then some "" else none) = "" ∧
    DBFile (fun key => if key = "PORT" then some "" else none) = "memos.db" ∧
    orEnv (fun key => if key = "PORT" then some "" else none) "PORT" "3000" = "" ∧
    orEnv (fun key => if key = "PORT" then some "" else none) "HOME" "x" = "x" :=
  ⟨(orEnv_default_or_value _).2.2.2.2.2 "" (by decide),
   (orEnv_default_or_value _).2.2.1 (by decide),
   (orEnv_default_or_value _).2.1 "PORT" "3000" "" (by decide),
   (orEnv_default_or_value _).1 "HOME" "x" (by decide)⟩

/-! ## Creation -/

/-- C4, evaluated: on the empty store at time 1000 the submission
`tag=work&title=Hi&content=Body&Archived=true&CreatedAt=5&UpdatedAt=3` is accepted
(302 to `/`) and the memo that is inserted has `Archived = true` and a `CreatedAt` of 5
above its `UpdatedAt` of 3; only its identifier, 1, is chosen by the storage. -/
theorem create_accepts_client_flags :
    serve ⟨1000, none, fun _ => none⟩ ⟨[], 0⟩
        (.PostMemoCreate ⟨none, [("tag", "work"), ("title", "Hi"), ("content", "Body"),
          ("Archived", "true"), ("CreatedAt", "5"), ("UpdatedAt", "3")]⟩) =
      (.Redirect StatusFound "/",
        ⟨[{ ID := 1, Hero := "", Tag := "work", Title := "Hi", Content := "Body",
            UpdatedAt := 3, CreatedAt := 5, Archived := true }], 1⟩) ∧
    ∃ m ∈ (serve ⟨1000, none, fun _ => none⟩ ⟨[], 0⟩
        (.PostMemoCreate ⟨none, [("tag", "work"), ("title", "Hi"), ("content", "Body"),
          ("Archived", "true"), ("CreatedAt", "5"), ("UpdatedAt", "3")]⟩)).2.rows,
      m.Archived = true ∧ m.UpdatedAt < m.CreatedAt := by
  decide

/-- C5, evaluated: two submissions with the same tag, title and content, the second one
also carrying keys named after the untagged fields of `Memo`.  On the empty store at
time 1000 the first is stored with identifier 1, empty hero, both times 1000 and
`Archived = false`; the second is stored with the identifier, hero, times and
`Archived` flag that the client sent. -/
theorem create_binds_untagged_fields :
    serve ⟨1000, none, fun _ => none⟩ ⟨[], 0⟩
        (.PostMemoCreate ⟨none, [("tag", "work"), ("title", "Hi"), ("content", "Body")]⟩) =
      (.Redirect StatusFound "/",
        ⟨[{ ID := 1, Hero := "", Tag := "work", Title := "Hi", Content := "Body",
            UpdatedAt := 1000, CreatedAt := 1000, Archived := false }], 1⟩) ∧
    serve ⟨1000, none, fun _ => none⟩ ⟨[], 0⟩
        (.PostMemoCreate ⟨none, [("tag", "work"), ("title", "Hi"), ("content", "Body"),
          ("ID", "7"), ("Hero", "x"), ("UpdatedAt", "3"), ("CreatedAt", "5"),
          ("Archived", "true")]⟩) =
      (.Redirect StatusFound "/",
        ⟨[{ ID := 7, Hero := "x", Tag := "work", Title := "Hi", Content := "Body",
            UpdatedAt := 3, CreatedAt := 5, Archived := true }], 7⟩) := by
  decide

/-- C6: when `POST /memo/create` with a submission that carries only the fields of the
create form, among them `tag`, `title` and `content`, succeeds (302 to `/`), a following
`GET /` that finds the engine answering responds 200 with the list view, and the memos
it renders include one with that tag, title and content. -/
theorem create_then_index (env env' : Env) (s s' : Store) (form : Form)
    (tag title content : String)
    (hform : documentedFields form)
    (htag : form.lookup "tag" = some tag) (htitle : form.lookup "title" = some title)
    (hcontent : form.lookup "content" = some content)
    (hpost : serve env s (.PostMemoCreate ⟨none, form⟩) = (.Redirect StatusFound "/", s'))
    (hup : env'.fault = none) :
    ∃ memos, serve env' s' .GetIndex = (.HTML StatusOK "list.html" (.Memos memos), s') ∧
      ∃ m ∈ memos, m.Tag = tag ∧ m.Title = title ∧ m.Content = content := by
  simp only [serve] at hpost
  obtain ⟨m, hrows, _, harch, _, _, _, hmt, hmti, hmc⟩ := handleMemoCreate_documented hform hpost
  refine ⟨s'.rows.filter (fun m => m.Archived == false), ?_, m, ?_, ?_, ?_, ?_⟩
  · simp [serve, handleIndex, getMemos, DB.Find, hup]
  · simp [List.mem_filter, hrows, harch]
  · simpa [bindString, htag] using hmt
  · simpa [bindString, htitle] using hmti
  · simpa [bindString, hcontent] using hmc

/-- C6, at the input of the specification: `tag=work&title=Hi&content=Body` on the empty
store, then `GET /`. -/
theorem create_then_index_witness :
    ∃ memos, serve ⟨1001, none, fun _ => none⟩
        ⟨[{ ID := 1, Hero := "", Tag := "work", Title := "Hi", Content := "Body",
            UpdatedAt := 1000, CreatedAt := 1000, Archived := false }], 1⟩ .GetIndex =
        (.HTML StatusOK "list.html" (.Memos memos),
          ⟨[{ ID := 1, Hero := "", Tag := "work", Title := "Hi", Content := "Body",
              UpdatedAt := 1000, CreatedAt := 1000, Archived := false }], 1⟩) ∧
      ∃ m ∈ memos, m.Tag = "work" ∧ m.Title = "Hi" ∧ m.Content = "Body" :=
  create_then_index ⟨1000, none, fun _ => none⟩ ⟨1001, none, fun _ => none⟩ ⟨[], 0⟩
    ⟨[{ ID := 1, Hero := "", Tag := "work", Title := "Hi", Content := "Body",
        UpdatedAt := 1000, CreatedAt := 1000, Archived := false }], 1⟩
    [("tag", "work"), ("title", "Hi"), ("content", "Body")] "work" "Hi" "Body"
    (by decide) (by decide) (by decide) (by decide) (by decide) rfl

/-! ## Handlers -/

/-- C7: each of `GET /`, `GET /:tag`, `GET /timeline.html` and `POST /memo/create` answers
with status 500 and the error view carrying `err.Error()` when its bind or storage
operation returns the error `err`, and only then; otherwise the `GET` handlers answer
200 with their view over the memos returned, and the create handler answers 302 with
location `/`.  In particular `GET /:tag` for a tag that no memo carries answers 200 with
the list view over no memos when the engine answers. -/
theorem status_mapping (env : Env) (s : Store) :
    ((∀ err, getMemos env.fault s = .error err → serve env s .GetIndex =
        (.HTML StatusInternalServerError "error.html" (.Message err.Error), s)) ∧
      (∀ memos, getMemos env.fault s = .ok memos → serve env s .GetIndex =
        (.HTML StatusOK "list.html" (.Memos memos), s)) ∧
      ((serve env s .GetIndex).1.isErrorView ↔ ∃ err, getMemos env.fault s = .error err)) ∧
    (∀ tag,
      (∀ err, getMemosFilterByTag env.fault s tag = .error err → serve env s (.GetTag tag) =
        (.HTML StatusInternalServerError "error.html" (.Message err.Error), s)) ∧
      (∀ memos, getMemosFilterByTag env.fault s tag = .ok memos → serve env s (.GetTag tag) =
        (.HTML StatusOK "list.html" (.Memos memos), s)) ∧
      ((serve env s (.GetTag tag)).1.isErrorView ↔
        ∃ err, getMemosFilterByTag env.fault s tag = .error err) ∧
      (env.fault = none → (∀ m ∈ s.rows, m.Tag ≠ tag) → serve env s (.GetTag tag) =
        (.HTML StatusOK "list.html" (.Memos []), s))) ∧
    ((∀ err, getMemos env.fault s = .error err → serve env s .GetTimelineHtml =
        (.HTML StatusInternalServerError "error.html" (.Message err.Error), s)) ∧
      (∀ memos, getMemos env.fault s = .ok memos → serve env s .GetTimelineHtml =
        (.HTML StatusOK "timeline.html" (.Memos memos), s)) ∧
      ((serve env s .GetTimelineHtml).1.isErrorView ↔
        ∃ err, getMemos env.fault s = .error err)) ∧
    (∀ sub,
      (∀ err, ShouldBind sub Memo.zero = .error err → serve env s (.PostMemoCreate sub) =
        (.HTML StatusInternalServerError "error.html" (.Message err.Error), s)) ∧
      (∀ memo err, ShouldBind sub Memo.zero = .ok memo →
        DB.Create env.fault env.now s memo = .error err → serve env s (.PostMemoCreate sub) =
        (.HTML StatusInternalServerError "error.html" (.Message err.Error), s)) ∧
      (∀ memo m s', ShouldBind sub Memo.zero = .ok memo →
        DB.Create env.fault env.now s memo = .ok (m, s') →
        serve env s (.PostMemoCreate sub) = (.Redirect StatusFound "/", s')) ∧
      ((serve env s (.PostMemoCreate sub)).1.isErrorView ↔
        ∃ err, createOutcome env s sub = .error err)) := by
  refine ⟨⟨?_, ?_, ?_⟩, ?_, ⟨?_, ?_, ?_⟩, ?_⟩
  · intro err h
    simp [serve, handleIndex, h]
  · intro memos h
    simp [serve, handleIndex, h]
  · simp only [serve, handleIndex, Response.isErrorView]
    cases getMemos env.fault s with
    | error err => simp
    | ok memos => simp [StatusOK, StatusInternalServerError]
  · intro tag
    refine ⟨?_, ?_, ?_, ?_⟩
    · intro err h
      simp [serve, handleTag, h]
    · intro memos h
      simp [serve, handleTag, h]
    · simp only [serve, handleTag, Response.isErrorView]
      cases getMemosFilterByTag env.fault s tag with
      | error err => simp
      | ok memos => simp [StatusOK, StatusInternalServerError]
    · intro hfault hnone
      have : s.rows.filter (fun m => m.Tag == tag) = [] := by
        rw [List.filter_eq_nil_iff]
        intro m hm
        simpa using hnone m hm
      simp [serve, handleTag, getMemosFilterByTag, DB.Find, hfault, this]
  · intro err h
    simp [serve, handleTimeline, h]
  · intro memos h
    simp [serve, handleTimeline, h]
  · simp only [serve, handleTimeline, Response.isErrorView]
    cases getMemos env.fault s with
    | error err => simp
    | ok memos => simp [StatusOK, StatusInternalServerError]
  · intro sub
    refine ⟨?_, ?_, ?_, ?_⟩
    · intro err h
      simp [serve, handleMemoCreate, h]
    · intro memo err hb hc
      simp [serve, handleMemoCreate, hb, hc]
    · intro memo m s' hb hc
      simp [serve, handleMemoCreate, hb, hc]
    · simp only [serve, handleMemoCreate, createOutcome, Response.isErrorView]
      cases ShouldBind sub Memo.zero with
      | error err => simp
      | ok memo =>
        simp only
        cases DB.Create env.fault env.now s memo with
        | error err => simp
        | ok p => simp

/-- C7, at concrete inputs: `GET /nonexistent-tag` on a store whose only memo is tagged
`work` answers 200 with the empty list view, and `GET /` while the engine reports
`disk I/O error` answers 500 with that message. -/
theorem status_mapping_witness :
    serve ⟨1000, none, fun _ => none⟩ ⟨[{ Memo.zero with ID := 1, Tag := "work" }], 1⟩
        (.GetTag "nonexistent-tag") =
      (.HTML StatusOK "list.html" (.Memos []), ⟨[{ Memo.zero with ID := 1, Tag := "work" }], 1⟩) ∧
    serve ⟨1000, some "disk I/O error", fun _ => none⟩
        ⟨[{ Memo.zero with ID := 1, Tag := "work" }], 1⟩ .GetIndex =
      (.HTML StatusInternalServerError "error.html" (.Message "disk I/O error"),
        ⟨[{ Memo.zero with ID := 1, Tag := "work" }], 1⟩) :=
  ⟨(status_mapping ⟨1000, none, fun _ => none⟩
      ⟨[{ Memo.zero with ID := 1, Tag := "work" }], 1⟩).2.1 "nonexistent-tag" |>.2.2.2 rfl
      (by decide),
   (status_mapping ⟨1000, some "disk I/O error", fun _ => none⟩
      ⟨[{ Memo.zero with ID := 1, Tag := "work" }], 1⟩).1.1 (.Storage "disk I/O error") rfl⟩

/-- C8: no request changes or removes a stored memo.  The rows before a request are a
prefix of the rows after it; every request other than `POST /memo/create` leaves the
store as it was; a request that is not answered with the redirect to `/` (so every
failed create) leaves the store as it was; and a request answered with that redirect
appends exactly one memo. -/
theorem requests_preserve_memos (env : Env) (s : Store) (req : Request) :
    s.rows <+: (serve env s req).2.rows ∧
    ((∀ sub, req ≠ .PostMemoCreate sub) → (serve env s req).2 = s) ∧
    ((serve env s req).1 ≠ .Redirect StatusFound "/" → (serve env s req).2 = s) ∧
    ((serve env s req).1 = .Redirect StatusFound "/" →
      ∃ m, (serve env s req).2.rows = s.rows ++ [m]) := by
  have hget : ∀ (v : String) (r : Except Err (List Memo)),
      (match r with
        | .error err =>
          ((Response.HTML StatusInternalServerError "error.html" (.Message err.Error), s) :
            Response × Store)
        | .ok memos => (.HTML StatusOK v (.Memos memos), s)).2 = s ∧
      (match r with
        | .error err =>
          ((Response.HTML StatusInternalServerError "error.html" (.Message err.Error), s) :
            Response × Store)
        | .ok memos => (.HTML StatusOK v (.Memos memos), s)).1 ≠ .Redirect StatusFound "/" := by
    intro v r
    cases r <;> simp
  cases req with
  | PostMemoCreate sub =>
    simp only [serve]
    rcases handleMemoCreate_cases env s sub with ⟨err, _, hresp⟩ | ⟨memo, m, s', _, hc, hresp⟩
    · rw [hresp]
      simp
    · rw [hresp]
      obtain ⟨_, hrows, _⟩ := Create_ok hc
      simp [hrows]
  | GetIndex =>
    obtain ⟨h1, h2⟩ := hget "list.html" (getMemos env.fault s)
    simp only [serve, handleIndex]
    simp [h1, h2]
  | GetTag tag =>
    obtain ⟨h1, h2⟩ := hget "list.html" (getMemosFilterByTag env.fault s tag)
    simp only [serve, handleTag]
    simp [h1, h2]
  | GetTimelineHtml =>
    obtain ⟨h1, h2⟩ := hget "timeline.html" (getMemos env.fault s)
    simp only [serve, handleTimeline]
    simp [h1, h2]
  | GetCreateHtml => simp [serve, handleCreateHtml]
  | GetStatic filepath =>
    simp only [serve, handleStatic]
    cases env.StaticFS filepath <;> simp
  | Unrouted => simp [serve]

/-- C8, at concrete inputs: a create submission with a malformed `ID` is answered with
the error view and leaves a one-memo store as it was, and a well-formed one appends a
memo to it. -/
theorem requests_preserve_memos_witness :
    (serve ⟨1000, none, fun _ => none⟩ ⟨[{ Memo.zero with ID := 1, Tag := "work" }], 1⟩
        (.PostMemoCreate ⟨none, [("title", "Hi"), ("ID", "x")]⟩)).2 =
      ⟨[{ Memo.zero with ID := 1, Tag := "work" }], 1⟩ ∧
    (serve ⟨1000, none, fun _ => none⟩ ⟨[{ Memo.zero with ID := 1, Tag := "work" }], 1⟩
        .GetTimelineHtml).2 = ⟨[{ Memo.zero with ID := 1, Tag := "work" }], 1⟩ ∧
    ∃ m, (serve ⟨1000, none, fun _ => none⟩ ⟨[{ Memo.zero with ID := 1, Tag := "work" }], 1⟩
        (.PostMemoCreate ⟨none, [("title", "Hi")]⟩)).2.rows =
      [{ Memo.zero with ID := 1, Tag := "work" }] ++ [m] :=
  ⟨(requests_preserve_memos ⟨1000, none, fun _ => none⟩
      ⟨[{ Memo.zero with ID := 1, Tag := "work" }], 1⟩
      (.PostMemoCreate ⟨none, [("title", "Hi"), ("ID", "x")]⟩)).2.2.1 (by decide),
   (requests_preserve_memos ⟨1000, none, fun _ => none⟩
      ⟨[{ Memo.zero with ID := 1, Tag := "work" }], 1⟩ .GetTimelineHtml).2.1
      (fun form h => Request.noConfusion h),
   (requests_preserve_memos ⟨1000, none, fun _ => none⟩
      ⟨[{ Memo.zero with ID := 1, Tag := "work" }], 1⟩
      (.PostMemoCreate ⟨none, [("title", "Hi")]⟩)).2.2.2 (by decide)⟩

/-- C9: `GET /` leaves the store as it was, so a second `GET /` that meets the same engine
condition gives the same response as the first, and whenever two successive `GET /`
requests both answer 200 they render the same memos: the list depends on the store
alone. -/
theorem index_idempotent (env₁ env₂ : Env) (s : Store) :
    (serve env₁ s .GetIndex).2 = s ∧
    (env₁.fault = env₂.fault →
      (serve env₂ (serve env₁ s .GetIndex).2 .GetIndex).1 = (serve env₁ s .GetIndex).1) ∧
    (∀ memos₁ memos₂,
      (serve env₁ s .GetIndex).1 = .HTML StatusOK "list.html" (.Memos memos₁) →
      (serve env₂ (serve env₁ s .GetIndex).2 .GetIndex).1 =
        .HTML StatusOK "list.html" (.Memos memos₂) →
      memos₁ = memos₂ ∧ memos₁ = s.rows.filter (fun m => m.Archived == false)) := by
  have hs : (serve env₁ s .GetIndex).2 = s := by
    simp only [serve, handleIndex]
    cases getMemos env₁.fault s <;> rfl
  refine ⟨hs, ?_, ?_⟩
  · intro hf
    rw [hs]
    simp only [serve, handleIndex, hf]
  · intro memos₁ memos₂ h1 h2
    rw [hs] at h2
    simp only [serve, handleIndex, getMemos, DB.Find] at h1 h2
    cases hf1 : env₁.fault with
    | some msg => simp [hf1, StatusOK, StatusInternalServerError] at h1
    | none =>
      cases hf2 : env₂.fault with
      | some msg => simp [hf2, StatusOK, StatusInternalServerError] at h2
      | none =>
        simp [hf1] at h1
        simp [hf2] at h2
        refine ⟨h1.symm.trans h2, ?_⟩
        rw [← h1]
        simp

/-- C9, at a concrete store with one active and one archived memo: both requests render
the active memo only. -/
theorem index_idempotent_witness :
    (serve ⟨1001, none, fun _ => none⟩
        (serve ⟨1000, none, fun _ => none⟩
          ⟨[{ Memo.zero with ID := 1, Tag := "work" },
            { Memo.zero with ID := 2, Archived := true }], 2⟩ .GetIndex).2 .GetIndex).1 =
      (serve ⟨1000, none, fun _ => none⟩
        ⟨[{ Memo.zero with ID := 1, Tag := "work" },
          { Memo.zero with ID := 2, Archived := true }], 2⟩ .GetIndex).1 ∧
    [{ Memo.zero with ID := 1, Tag := "work" }] =
      [{ Memo.zero with ID := 1, Tag := "work" }, { Memo.zero with ID := 2, Archived := true }].filter
        (fun m => m.Archived == false) :=
  ⟨(index_idempotent ⟨1000, none, fun _ => none⟩ ⟨1001, none, fun _ => none⟩
      ⟨[{ Memo.zero with ID := 1, Tag := "work" },
        { Memo.zero with ID := 2, Archived := true }], 2⟩).2.1 rfl,
   ((index_idempotent ⟨1000, none, fun _ => none⟩ ⟨1001, none, fun _ => none⟩
      ⟨[{ Memo.zero with ID := 1, Tag := "work" },
        { Memo.zero with ID := 2, Archived := true }], 2⟩).2.2
      [{ Memo.zero with ID := 1, Tag := "work" }] [{ Memo.zero with ID := 1, Tag := "work" }]
      (by decide) (by decide)).2⟩

end Memos
